import Mathlib

/-!
Shallow embedding of the sqbot-js session orchestrator
(`src/bot/GameState.ts`, `src/utils.ts` createStreamBridge, and the
score-query copy semantics of `GameState.getScores`).

JS strings are modelled as lists of UTF-16 code points (`List Nat`);
`toLowerCase` / `toUpperCase` act on the ASCII letter ranges, and the
regex `\s` class is modelled by the usual ASCII whitespace code points.
-/

namespace SQBot

/-- JS strings as lists of UTF-16 code points. -/
abbrev JSStr := List Nat

/-- ASCII lower-casing of one code point (JS `String.prototype.toLowerCase`
restricted to ASCII). -/
def jsLowerChar (c : Nat) : Nat := if 65 ≤ c ∧ c ≤ 90 then c + 32 else c

/-- ASCII upper-casing of one code point (JS `String.prototype.toUpperCase`
restricted to ASCII). -/
def jsUpperChar (c : Nat) : Nat := if 97 ≤ c ∧ c ≤ 122 then c - 32 else c

/-- JS `s.toLowerCase()`. -/
def toLowerCase (s : JSStr) : JSStr := s.map jsLowerChar

/-- JS `s.toUpperCase()`. -/
def toUpperCase (s : JSStr) : JSStr := s.map jsUpperChar

/-- membership of a code point in the regex class `\s` (ASCII part). -/
def isJsSpace (c : Nat) : Bool :=
  c = 32 || c = 9 || c = 10 || c = 11 || c = 12 || c = 13

/-- JS `s.replace(/\s+/g, "")`: removing every maximal whitespace run is the
same as dropping every whitespace code point. -/
def stripWhitespace (s : JSStr) : JSStr := s.filter (fun c => !isJsSpace c)

theorem jsLowerChar_jsUpperChar (c : Nat) :
    jsLowerChar (jsUpperChar c) = jsLowerChar c := by
  unfold jsLowerChar jsUpperChar
  split <;> split <;> (try split) <;> omega

theorem jsLowerChar_idem (c : Nat) :
    jsLowerChar (jsLowerChar c) = jsLowerChar c := by
  unfold jsLowerChar
  split <;> (try split) <;> omega

theorem toLowerCase_toUpperCase (s : JSStr) :
    toLowerCase (toUpperCase s) = toLowerCase s := by
  unfold toLowerCase toUpperCase
  rw [List.map_map]
  exact List.map_congr_left fun c _ => jsLowerChar_jsUpperChar c

theorem toLowerCase_idem (s : JSStr) :
    toLowerCase (toLowerCase s) = toLowerCase s := by
  unfold toLowerCase
  rw [List.map_map]
  exact List.map_congr_left fun c _ => jsLowerChar_idem c

/-- One quiz entry (`QuizEntry` of `src/shared/types/quiz`). -/
structure QuizEntry where
  id : JSStr
  performer : JSStr
  canonicalName : JSStr
  possibleAnswers : List JSStr
  ytVideoId : JSStr
  songStart : Int
  playDuration : Int
deriving DecidableEq, Repr

/-- A quiz pack (`QuizPack` of `src/shared/types/quiz`), restricted to the
fields the orchestrator reads. -/
structure QuizPack where
  id : JSStr
  name : JSStr
  entries : List QuizEntry
deriving DecidableEq, Repr

/-- Model of `GameState.generatePossibleAnswers`: the JS `Set` built by the
`reduce` is modelled by the list of every element added to it; membership
in the set is membership in this list.  For each answer `x` the code adds
`x.toLowerCase()`, `x.replace(/\s+/g, "")`, that stripped form lower-cased,
and `x` itself. -/
def generatePossibleAnswers (entry : QuizEntry) : List JSStr :=
  (entry.canonicalName :: entry.possibleAnswers).flatMap fun x =>
    [toLowerCase x, stripWhitespace x, toLowerCase (stripWhitespace x), x]

/-- Model of `GameState.isCorrectAnswer`. -/
def isCorrectAnswer (answer : JSStr) (entry : QuizEntry) : Bool :=
  (generatePossibleAnswers entry).contains answer

/-- The matching predicate as exercised by `GameState.checkAnswer`: the
raw guess is first lower-cased (`message.content.toLowerCase()`) and then
tested with `isCorrectAnswer`. -/
def jsMatches (entry : QuizEntry) (guess : JSStr) : Bool :=
  isCorrectAnswer (toLowerCase guess) entry

/-- The two kinds of callback the single `roundTimeout` field of
`GameState` can hold: the per-round timeout
(`setTimeout(() => this.timeoutCurrentRound(), ...)`) and the
next-round delay (`setTimeout(() => this.playNextRound(), ...)`). -/
inductive TimerCb
  | roundTimeout
  | nextRound
deriving DecidableEq, Repr

/-- Observable side effects of the orchestrator: channel messages, score
mutation, player stop, and timer arming/cancelling.  Delays are recorded
in seconds. -/
inductive Event
  | sendJoin (p : JSStr)
  | sendLeave (p : JSStr)
  | sendRules
  | credit (p : JSStr) (newScore : Nat)
  | sendWinner (p : JSStr) (performer canonical : JSStr)
  | sendSkipAvailable
  | sendSkipTally (votes total : Nat)
  | sendSkipAnnounce (revealAnswer : Bool)
  | sendTimeout (performer canonical : JSStr)
  | sendRoundStart (roundNum total : Nat)
  | sendPlayError (vid : JSStr)
  | stopPlayer
  | armTimer (cb : TimerCb) (delaySeconds : Int)
  | clearTimer
  | sendFinalScores (ranked : List (JSStr × Nat))
deriving DecidableEq, Repr

/-- The mutable fields of `GameState` (plus the constructor-set
identifiers).  The JS `Map`/`Set` fields are modelled by
insertion-ordered association lists / duplicate-free lists.
`roundTimeout` records which callback is currently armed (`none` when no
timer is pending). -/
structure GameState where
  guildId : JSStr
  hostId : JSStr
  channelId : JSStr
  packName : JSStr
  entries : List QuizEntry
  isActive : Bool
  currentRound : Nat
  scores : List (JSStr × Nat)
  players : List JSStr
  skipVoters : List JSStr
  roundTimeout : Option TimerCb
  answerDisplayed : Bool
deriving DecidableEq, Repr

/-- JS `Map.prototype.get` on the association-list model. -/
def mapGet (m : List (JSStr × Nat)) (k : JSStr) : Option Nat :=
  (m.find? fun kv => kv.1 == k).map (·.2)

/-- JS `Map.prototype.set`: overwrite in place when the key exists, append
otherwise (JS maps are insertion ordered). -/
def mapSet (m : List (JSStr × Nat)) (k : JSStr) (v : Nat) : List (JSStr × Nat) :=
  if m.any fun kv => kv.1 == k then
    m.map fun kv => if kv.1 == k then (kv.1, v) else kv
  else m ++ [(k, v)]

/-- JS `Set.prototype.add` on the duplicate-free-list model. -/
def setAdd (s : List JSStr) (x : JSStr) : List JSStr :=
  if s.contains x then s else s ++ [x]

/-- JS `Set.prototype.delete`. -/
def setDel (s : List JSStr) (x : JSStr) : List JSStr :=
  s.filter fun y => !(y == x)

/-- A participant's score as read by `checkAnswer`:
`this.scores.get(id) || 0`. -/
def score (s : GameState) (p : JSStr) : Nat :=
  (mapGet s.scores p).getD 0

/-- Model of `GameState.currentEntry` (computed property): `undefined` once
`currentRound` runs past the entry list. -/
def currentEntry (s : GameState) : Option QuizEntry :=
  if s.entries.length ≤ s.currentRound then none
  else s.entries[s.currentRound]?

theorem currentRound_lt_of_currentEntry {s : GameState} {e : QuizEntry}
    (h : currentEntry s = some e) : s.currentRound < s.entries.length := by
  unfold currentEntry at h
  split at h
  · exact absurd h (by simp)
  · omega

/-- Inputs the orchestrator receives from the outside world:
`skipShortcuts` stands for the `SKIP_SHORTCUT` constant (its defining
module `src/bot/constants.ts` is not part of the sources, so the list is
kept abstract), and `playOk i` tells whether creating the audio stream
for round index `i` succeeds (`createAudioStream` resolving vs.
rejecting). -/
structure Env where
  skipShortcuts : List JSStr
  playOk : Nat → Bool

/-- A room message as far as `checkAnswer` inspects it. -/
structure Msg where
  authorId : JSStr
  channelId : JSStr
  content : JSStr
deriving DecidableEq, Repr

/-- The descending, stable score ranking computed by `GameState.end`
(`[...this.scores.entries()].sort(([, a], [, b]) => b - a)`). -/
def sortScoresDesc (m : List (JSStr × Nat)) : List (JSStr × Nat) :=
  m.mergeSort fun x y => decide (y.2 ≤ x.2)

/-- Model of `GameState.end`: deactivate, cancel any pending timer, announce the
final ranked scores, release the voice resources. -/
def endGame (s : GameState) : GameState × List Event :=
  let clearEvs := if s.roundTimeout.isSome then [Event.clearTimer] else []
  ({ s with isActive := false, roundTimeout := none },
    clearEvs ++ [Event.sendFinalScores (sortScoresDesc s.scores)])

mutual

/-- Model of `GameState.playNextRound`: end the session when no entry remains;
otherwise cancel any pending timer, reset the skip-vote set and the
answer-displayed flag, start playback of the current entry, and announce
the round number. -/
def playNextRound (env : Env) (s : GameState) : GameState × List Event :=
  match currentEntry s with
  | none => endGame s
  | some _ =>
    let clearEvs := if s.roundTimeout.isSome then [Event.clearTimer] else []
    let s1 : GameState :=
      { s with roundTimeout := none, skipVoters := [], answerDisplayed := false }
    let r := playCurrentEntry env s1
    (r.1, clearEvs ++ r.2
      ++ [Event.sendRoundStart (r.1.currentRound + 1) r.1.entries.length])
termination_by (s.entries.length - s.currentRound, 1)

/-- Model of `GameState.playCurrentEntry`: on success arm the round timeout for
`playDuration` seconds when the entry specifies a positive duration and
for `60` seconds otherwise; on stream-creation failure announce the
skipped entry, stop the player, advance the round index and recurse into
`playNextRound`. -/
def playCurrentEntry (env : Env) (s : GameState) : GameState × List Event :=
  match h : currentEntry s with
  | none => (s, [])
  | some e =>
    let playDuration : Int := if e.playDuration > 0 then e.playDuration else 60
    if env.playOk s.currentRound then
      ({ s with roundTimeout := some TimerCb.roundTimeout },
        [Event.armTimer TimerCb.roundTimeout playDuration])
    else
      let s1 : GameState := { s with currentRound := s.currentRound + 1 }
      let r := playNextRound env s1
      (r.1, Event.sendPlayError e.ytVideoId :: Event.stopPlayer :: r.2)
termination_by (s.entries.length - s.currentRound, 0)
decreasing_by
  have := currentRound_lt_of_currentEntry h
  exact Prod.Lex.left _ _ (by omega)

end

/-- Model of `GameState.timeoutCurrentRound`: stop playback, announce the timeout
and reveal the answer, advance the round index, and schedule the next
round after a 3 second delay. -/
def timeoutCurrentRound (s : GameState) : GameState × List Event :=
  match currentEntry s with
  | none => (s, [])
  | some e =>
    ({ s with currentRound := s.currentRound + 1,
              roundTimeout := some TimerCb.nextRound },
      [Event.stopPlayer, Event.sendTimeout e.performer e.canonicalName,
       Event.armTimer TimerCb.nextRound 3])

/-- Model of `GameState.voteSkip`: reject non-participants, inactive sessions,
exhausted sessions and double votes; otherwise record the vote, announce
the tally, and once the voters strictly outnumber half the players
(`this.skipVoters.size > totalPlayers / 2`, real division) announce the
skip — revealing the answer unless it was already displayed — advance
the round index and start the next round. -/
def voteSkip (env : Env) (s : GameState) (memberId : JSStr) :
    GameState × List Event × Bool :=
  if !(s.isActive && (currentEntry s).isSome && s.players.contains memberId) then
    (s, [], false)
  else if s.skipVoters.contains memberId then (s, [], false)
  else
    let voters := s.skipVoters ++ [memberId]
    let s1 : GameState := { s with skipVoters := voters }
    let totalPlayers := s1.players.length
    let tally := Event.sendSkipTally voters.length totalPlayers
    if 2 * voters.length > totalPlayers then
      let s2 : GameState := { s1 with currentRound := s1.currentRound + 1 }
      let r := playNextRound env s2
      (r.1, tally :: Event.sendSkipAnnounce (!s1.answerDisplayed) :: r.2, true)
    else
      (s1, [tally], false)

/-- Model of `GameState.checkAnswer`: ignore messages when the session is
inactive or exhausted, from another channel, or from non-participants;
lower-case the content; route skip shortcuts to `voteSkip`; on a match
credit the author one point, announce the winner with the canonical
answer, mark the answer displayed, and announce that skip votes are now
accepted.  The round timer is left untouched and the round index does
not advance. -/
def checkAnswer (env : Env) (s : GameState) (m : Msg) :
    GameState × List Event × Bool :=
  match currentEntry s with
  | none => (s, [], false)
  | some e =>
    if !(s.isActive && s.channelId == m.channelId
          && s.players.contains m.authorId) then
      (s, [], false)
    else
      let answer := toLowerCase m.content
      if env.skipShortcuts.contains answer then
        let r := voteSkip env s m.authorId
        (r.1, r.2.1, false)
      else if isCorrectAnswer answer e then
        let newScore := (mapGet s.scores m.authorId).getD 0 + 1
        let s1 : GameState :=
          { s with scores := mapSet s.scores m.authorId newScore,
                   answerDisplayed := true }
        (s1, [Event.credit m.authorId newScore,
              Event.sendWinner m.authorId e.performer e.canonicalName,
              Event.sendSkipAvailable], true)
      else (s, [], false)

/-- Model of `GameState.addPlayer`. -/
def addPlayer (s : GameState) (p : JSStr) : GameState × List Event :=
  ({ s with players := setAdd s.players p }, [Event.sendJoin p])

/-- Model of `GameState.removePlayer` (scores are not touched). -/
def removePlayer (s : GameState) (p : JSStr) : GameState × List Event :=
  ({ s with players := setDel s.players p }, [Event.sendLeave p])

/-- Model of `GameState.start`: activate, announce the rules, schedule round 0
after a 7 second delay. -/
def startGame (s : GameState) : GameState × List Event :=
  ({ s with isActive := true, roundTimeout := some TimerCb.nextRound },
    [Event.sendRules, Event.armTimer TimerCb.nextRound 7])

/-- The `GameState` constructor: copy the pack's entries and shuffle the
copy (`[...pack.entries].sort(() => Math.random() - 0.5)`).  A JS sort
always rearranges the array's elements, whatever the comparator returns,
so the random shuffle is modelled as a merge sort under an arbitrary
boolean comparator `cmp` supplied by the environment. -/
def mkGameState (guildId hostId channelId : JSStr) (pack : QuizPack)
    (cmp : QuizEntry → QuizEntry → Bool) : GameState :=
  { guildId := guildId
    hostId := hostId
    channelId := channelId
    packName := pack.name
    entries := pack.entries.mergeSort cmp
    isActive := false
    currentRound := 0
    scores := []
    players := [hostId]
    skipVoters := []
    roundTimeout := none
    answerDisplayed := false }

/-- The externally triggered operations on one session: the public
methods of `GameState` plus the firing of whichever callback the
`roundTimeout` field currently holds. -/
inductive Op
  | start
  | addPlayer (p : JSStr)
  | removePlayer (p : JSStr)
  | message (m : Msg)
  | voteSkip (p : JSStr)
  | fireTimer
  | stop
deriving Repr

/-- One externally triggered transition.  `fireTimer` consumes the armed
timer handle and runs the callback it held; with no armed timer it is a
no-op (a cancelled `setTimeout` never fires). -/
def step (env : Env) (s : GameState) : Op → GameState × List Event
  | .start => startGame s
  | .addPlayer p => addPlayer s p
  | .removePlayer p => removePlayer s p
  | .message m => let r := checkAnswer env s m; (r.1, r.2.1)
  | .voteSkip p => let r := voteSkip env s p; (r.1, r.2.1)
  | .fireTimer =>
    match s.roundTimeout with
    | none => (s, [])
    | some cb =>
      let s1 : GameState := { s with roundTimeout := none }
      match cb with
      | .roundTimeout => timeoutCurrentRound s1
      | .nextRound => playNextRound env s1
  | .stop => endGame s

/-- Running a sequence of operations. -/
def runOps (env : Env) (s : GameState) : List Op → GameState
  | [] => s
  | op :: rest => runOps env (step env s op).1 rest

theorem find?_map_overwrite (m : List (JSStr × Nat)) (k : JSStr) (v : Nat) :
    ((m.map fun kv => if kv.1 == k then (kv.1, v) else kv).find?
        fun kv => kv.1 == k)
      = (m.find? fun kv => kv.1 == k).map fun kv => (kv.1, v) := by
  induction m with
  | nil => rfl
  | cons a m ih =>
    cases hak : (a.1 == k) with
    | true =>
      have h' : a.1 = k := by simpa using hak
      simp [List.find?_cons, h']
    | false =>
      simp only [List.map_cons, List.find?_cons, hak, Bool.false_eq_true,
        if_false]
      exact ih

theorem mapGet_mapSet_self (m : List (JSStr × Nat)) (k : JSStr) (v : Nat) :
    mapGet (mapSet m k v) k = some v := by
  unfold mapGet mapSet
  by_cases hany : (m.any fun kv => kv.1 == k) = true
  · rw [if_pos hany, find?_map_overwrite]
    cases hfind : m.find? fun kv => kv.1 == k with
    | none =>
      exfalso
      obtain ⟨kv, hmem, hkv⟩ := List.any_eq_true.mp hany
      exact absurd (List.find?_eq_none.mp hfind kv hmem) (by simp [hkv])
    | some kv2 => rfl
  · rw [if_neg hany, List.find?_append]
    have hnone : (m.find? fun kv => kv.1 == k) = none := by
      rw [List.find?_eq_none]
      intro x hx hbeq
      exact hany (List.any_eq_true.mpr ⟨x, hx, hbeq⟩)
    simp [hnone, List.find?_cons]

theorem mapGet_mapSet_ne (m : List (JSStr × Nat)) (k : JSStr) (v : Nat)
    (q : JSStr) (hqk : q ≠ k) : mapGet (mapSet m k v) q = mapGet m q := by
  unfold mapGet mapSet
  by_cases hany : (m.any fun kv => kv.1 == k) = true
  · rw [if_pos hany]
    have key : ∀ mm : List (JSStr × Nat),
        ((mm.map fun kv => if kv.1 == k then (kv.1, v) else kv).find?
            fun kv => kv.1 == q)
          = mm.find? fun kv => kv.1 == q := by
      intro mm
      induction mm with
      | nil => rfl
      | cons a mm ih =>
        have hfst : (if (a.1 == k) = true then (a.1, v) else a).1 = a.1 := by
          split <;> rfl
        cases haq : (a.1 == q) with
        | true =>
          have h' : a.1 = q := by simpa using haq
          have hak : (a.1 == k) = false := by
            simp only [beq_eq_false_iff_ne, ne_eq, h']
            exact hqk
          have hfa : (if (a.1 == k) = true then (a.1, v) else a) = a :=
            if_neg (by simp [hak])
          simp only [List.map_cons, List.find?_cons, hfa, haq]
        | false =>
          simp only [List.map_cons, List.find?_cons, hfst, haq,
            Bool.false_eq_true, if_false]
          exact ih
    rw [key]
  · rw [if_neg hany, List.find?_append]
    have hkq : (k == q) = false := by
      simp only [beq_eq_false_iff_ne, ne_eq]
      exact fun h => hqk h.symm
    simp [List.find?_cons, hkq]

/-- Fields of the session that the round-sequencing loop never touches,
plus monotonicity of the round index. -/
def Pres (s t : GameState) : Prop :=
  t.entries = s.entries ∧ t.scores = s.scores ∧ t.players = s.players
    ∧ s.currentRound ≤ t.currentRound

theorem pres_refl (s : GameState) : Pres s s := ⟨rfl, rfl, rfl, le_refl _⟩

theorem pres_trans {s t u : GameState} (h1 : Pres s t) (h2 : Pres t u) :
    Pres s u :=
  ⟨h2.1.trans h1.1, h2.2.1.trans h1.2.1, h2.2.2.1.trans h1.2.2.1,
    h1.2.2.2.trans h2.2.2.2⟩

theorem endGame_pres (s : GameState) : Pres s (endGame s).1 :=
  ⟨rfl, rfl, rfl, le_refl _⟩

theorem play_pres_aux (n : Nat) :
    (∀ env s, s.entries.length - s.currentRound ≤ n
        → Pres s (playCurrentEntry env s).1)
      ∧ (∀ env s, s.entries.length - s.currentRound ≤ n
        → Pres s (playNextRound env s).1) := by
  induction n with
  | zero =>
    have hnone : ∀ s : GameState, s.entries.length - s.currentRound ≤ 0
        → currentEntry s = none := by
      intro s hs
      unfold currentEntry
      rw [if_pos (by omega)]
    constructor
    · intro env s hs
      rw [playCurrentEntry, hnone s hs]
      exact pres_refl s
    · intro env s hs
      rw [playNextRound, hnone s hs]
      exact endGame_pres s
  | succ n ih =>
    have hPC : ∀ env s, s.entries.length - s.currentRound ≤ n + 1
        → Pres s (playCurrentEntry env s).1 := by
      intro env s hs
      rw [playCurrentEntry]
      cases hE : currentEntry s with
      | none => exact pres_refl s
      | some e =>
        have hlt := currentRound_lt_of_currentEntry hE
        dsimp only
        split
        · exact ⟨rfl, rfl, rfl, le_refl _⟩
        · dsimp only
          have hrec := ih.2 env { s with currentRound := s.currentRound + 1 }
            (show s.entries.length - (s.currentRound + 1) ≤ n by omega)
          refine pres_trans ?_ hrec
          exact ⟨rfl, rfl, rfl, Nat.le_succ _⟩
    refine ⟨hPC, ?_⟩
    intro env s hs
    rw [playNextRound]
    cases hE : currentEntry s with
    | none => exact endGame_pres s
    | some e =>
      dsimp only
      have hrec := hPC env { s with roundTimeout := none, skipVoters := [], answerDisplayed := false }
        (show s.entries.length - s.currentRound ≤ n + 1 from hs)
      exact pres_trans ⟨rfl, rfl, rfl, le_refl _⟩ hrec

theorem playCurrentEntry_pres (env : Env) (s : GameState) :
    Pres s (playCurrentEntry env s).1 :=
  (play_pres_aux (s.entries.length - s.currentRound)).1 env s (le_refl _)

theorem playNextRound_pres (env : Env) (s : GameState) :
    Pres s (playNextRound env s).1 :=
  (play_pres_aux (s.entries.length - s.currentRound)).2 env s (le_refl _)

theorem voteSkip_pres (env : Env) (s : GameState) (p : JSStr) :
    Pres s (voteSkip env s p).1 := by
  unfold voteSkip
  split
  · exact pres_refl s
  · split
    · exact pres_refl s
    · dsimp only
      split
      · dsimp only
        refine pres_trans ?_ (playNextRound_pres env _)
        exact ⟨rfl, rfl, rfl, Nat.le_succ _⟩
      · exact ⟨rfl, rfl, rfl, le_refl _⟩

theorem timeoutCurrentRound_pres (s : GameState) :
    Pres s (timeoutCurrentRound s).1 := by
  unfold timeoutCurrentRound
  cases currentEntry s with
  | none => exact pres_refl s
  | some e => exact ⟨rfl, rfl, rfl, by simp⟩

/-- Helper: `checkAnswer` returns `true` only through the correct-answer branch,
which leaves the round index, the round timer and the entry list alone,
sets the answer-displayed flag, overwrites the author's score with its
old value plus one, and emits exactly the credit, winner announcement
and skip-vote announcement, in this order. -/
theorem checkAnswer_correct_spec (env : Env) (s : GameState) (m : Msg)
    (e : QuizEntry) (hE : currentEntry s = some e)
    (h : (checkAnswer env s m).2.2 = true) :
    (checkAnswer env s m).2.1
        = [Event.credit m.authorId (score s m.authorId + 1),
           Event.sendWinner m.authorId e.performer e.canonicalName,
           Event.sendSkipAvailable]
      ∧ (checkAnswer env s m).1.scores
          = mapSet s.scores m.authorId (score s m.authorId + 1)
      ∧ (checkAnswer env s m).1.roundTimeout = s.roundTimeout
      ∧ (checkAnswer env s m).1.currentRound = s.currentRound
      ∧ (checkAnswer env s m).1.answerDisplayed = true
      ∧ (checkAnswer env s m).1.entries = s.entries
      ∧ (checkAnswer env s m).1.players = s.players := by
  unfold checkAnswer at *
  rw [hE] at h ⊢
  dsimp only at h ⊢
  by_cases hguard : (!(s.isActive && s.channelId == m.channelId
      && s.players.contains m.authorId)) = true
  · rw [if_pos hguard] at h
    exact absurd h (by simp)
  · rw [if_neg hguard] at h ⊢
    by_cases hshort : env.skipShortcuts.contains (toLowerCase m.content) = true
    · rw [if_pos hshort] at h
      exact absurd h (by simp)
    · rw [if_neg hshort] at h ⊢
      by_cases hcorr : isCorrectAnswer (toLowerCase m.content) e = true
      · rw [if_pos hcorr]
        exact ⟨rfl, rfl, rfl, rfl, rfl, rfl, rfl⟩
      · rw [if_neg hcorr] at h
        exact absurd h (by simp)

theorem checkAnswer_entries (env : Env) (s : GameState) (m : Msg) :
    (checkAnswer env s m).1.entries = s.entries
      ∧ (checkAnswer env s m).1.players = s.players
      ∧ (checkAnswer env s m).1.currentRound = s.currentRound
      ∨ (checkAnswer env s m).1 = (voteSkip env s m.authorId).1 := by
  unfold checkAnswer
  cases currentEntry s with
  | none => exact Or.inl ⟨rfl, rfl, rfl⟩
  | some e =>
    dsimp only
    split
    · exact Or.inl ⟨rfl, rfl, rfl⟩
    · split
      · exact Or.inr rfl
      · split
        · exact Or.inl ⟨rfl, rfl, rfl⟩
        · exact Or.inl ⟨rfl, rfl, rfl⟩

theorem checkAnswer_score_mono (env : Env) (s : GameState) (m : Msg)
    (p : JSStr) : score s p ≤ score (checkAnswer env s m).1 p := by
  unfold checkAnswer
  cases currentEntry s with
  | none => exact le_refl _
  | some e =>
    dsimp only
    split
    · exact le_refl _
    · split
      · show score s p ≤ score (voteSkip env s m.authorId).1 p
        unfold score
        rw [(voteSkip_pres env s m.authorId).2.1]
      · split
        · show score s p ≤ score { s with
            scores := mapSet s.scores m.authorId (score s m.authorId + 1),
            answerDisplayed := true } p
          by_cases hp : p = m.authorId
          · subst hp
            simp only [score, mapGet_mapSet_self, Option.getD_some]
            exact Nat.le_succ _
          · simp only [score, mapGet_mapSet_ne s.scores m.authorId _ p hp]
            exact le_refl _
        · exact le_refl _

theorem step_entries (env : Env) (s : GameState) (op : Op) :
    (step env s op).1.entries = s.entries := by
  cases op with
  | start => rfl
  | addPlayer p => rfl
  | removePlayer p => rfl
  | message m =>
    rcases checkAnswer_entries env s m with h | h
    · exact h.1
    · show (checkAnswer env s m).1.entries = s.entries
      rw [h]
      exact (voteSkip_pres env s m.authorId).1
  | voteSkip p => exact (voteSkip_pres env s p).1
  | fireTimer =>
    cases hT : s.roundTimeout with
    | none => simp [step, hT]
    | some cb =>
      cases cb with
      | roundTimeout =>
        simp only [step, hT]
        exact (timeoutCurrentRound_pres { s with roundTimeout := none }).1
      | nextRound =>
        simp only [step, hT]
        exact (playNextRound_pres env { s with roundTimeout := none }).1
  | stop => rfl

theorem step_round_mono (env : Env) (s : GameState) (op : Op) :
    s.currentRound ≤ (step env s op).1.currentRound := by
  cases op with
  | start => exact le_refl _
  | addPlayer p => exact le_refl _
  | removePlayer p => exact le_refl _
  | message m =>
    rcases checkAnswer_entries env s m with h | h
    · exact le_of_eq h.2.2.symm
    · show s.currentRound ≤ (checkAnswer env s m).1.currentRound
      rw [h]
      exact (voteSkip_pres env s m.authorId).2.2.2
  | voteSkip p => exact (voteSkip_pres env s p).2.2.2
  | fireTimer =>
    cases hT : s.roundTimeout with
    | none => simp [step, hT]
    | some cb =>
      cases cb with
      | roundTimeout =>
        simp only [step, hT]
        exact (timeoutCurrentRound_pres { s with roundTimeout := none }).2.2.2
      | nextRound =>
        simp only [step, hT]
        exact (playNextRound_pres env { s with roundTimeout := none }).2.2.2
  | stop => exact le_refl _

theorem step_score_mono (env : Env) (s : GameState) (op : Op) (p : JSStr) :
    score s p ≤ score (step env s op).1 p := by
  cases op with
  | start => exact le_refl _
  | addPlayer q => exact le_refl _
  | removePlayer q => exact le_refl _
  | message m => exact checkAnswer_score_mono env s m p
  | voteSkip q =>
    show score s p ≤ score (voteSkip env s q).1 p
    unfold score
    rw [(voteSkip_pres env s q).2.1]
  | fireTimer =>
    cases hT : s.roundTimeout with
    | none => simp [step, hT]
    | some cb =>
      cases cb with
      | roundTimeout =>
        simp only [step, hT]
        unfold score
        rw [(timeoutCurrentRound_pres { s with roundTimeout := none }).2.1]
      | nextRound =>
        simp only [step, hT]
        unfold score
        rw [(playNextRound_pres env { s with roundTimeout := none }).2.1]
  | stop => exact le_refl _

theorem runOps_score_mono (env : Env) (ops : List Op) (s : GameState)
    (p : JSStr) : score s p ≤ score (runOps env s ops) p := by
  induction ops generalizing s with
  | nil => exact le_refl _
  | cons op rest ih =>
    exact le_trans (step_score_mono env s op p) (ih (step env s op).1)

theorem runOps_entries (env : Env) (ops : List Op) (s : GameState) :
    (runOps env s ops).entries = s.entries := by
  induction ops generalizing s with
  | nil => rfl
  | cons op rest ih => rw [runOps, ih (step env s op).1, step_entries]

theorem currentEntry_of_getElem {s : GameState} {e : QuizEntry}
    (h : s.entries[s.currentRound]? = some e) : currentEntry s = some e := by
  have hlt : s.currentRound < s.entries.length :=
    (List.getElem?_eq_some.mp h).1
  unfold currentEntry
  rw [if_neg (by omega), h]

theorem playNextRound_none (env : Env) (s : GameState)
    (hE : currentEntry s = none) : playNextRound env s = endGame s := by
  rw [playNextRound]
  split
  · rfl
  · next e heq => rw [hE] at heq; exact absurd heq (by simp)

theorem playNextRound_entry (env : Env) (s : GameState) (e : QuizEntry)
    (hE : currentEntry s = some e) :
    playNextRound env s
      = ((playCurrentEntry env { s with roundTimeout := none, skipVoters := [], answerDisplayed := false }).1,
         (if s.roundTimeout.isSome then [Event.clearTimer] else [])
           ++ (playCurrentEntry env { s with roundTimeout := none, skipVoters := [], answerDisplayed := false }).2
           ++ [Event.sendRoundStart
                ((playCurrentEntry env { s with roundTimeout := none, skipVoters := [], answerDisplayed := false }).1.currentRound + 1)
                (playCurrentEntry env { s with roundTimeout := none, skipVoters := [], answerDisplayed := false }).1.entries.length]) := by
  rw [playNextRound]
  split
  · next heq => rw [hE] at heq; exact absurd heq (by simp)
  · rfl

theorem playCurrentEntry_ok (env : Env) (s : GameState) (e : QuizEntry)
    (hE : currentEntry s = some e) (hOk : env.playOk s.currentRound = true) :
    playCurrentEntry env s
      = ({ s with roundTimeout := some TimerCb.roundTimeout },
         [Event.armTimer TimerCb.roundTimeout
            (if 0 < e.playDuration then e.playDuration else 60)]) := by
  rw [playCurrentEntry]
  split
  · next heq => rw [hE] at heq; exact absurd heq (by simp)
  · next e2 heq =>
    rw [hE] at heq
    injection heq with he
    subst he
    dsimp only
    rw [if_pos hOk]

theorem playCurrentEntry_fail (env : Env) (s : GameState) (e : QuizEntry)
    (hE : currentEntry s = some e) (hFail : env.playOk s.currentRound = false) :
    playCurrentEntry env s
      = ((playNextRound env { s with currentRound := s.currentRound + 1 }).1,
         Event.sendPlayError e.ytVideoId :: Event.stopPlayer
           :: (playNextRound env { s with currentRound := s.currentRound + 1 }).2) := by
  rw [playCurrentEntry]
  split
  · next heq => rw [hE] at heq; exact absurd heq (by simp)
  · next e2 heq =>
    rw [hE] at heq
    injection heq with he
    subst he
    dsimp only
    rw [if_neg (by rw [hFail]; decide)]

/-! Concrete fixtures used by the witnesses and counterexamples. -/

/-- An entry whose canonical title is `"ab cd"` (code points), performer
`"pf"`, 30 seconds of play. -/
def entryAB : QuizEntry :=
  { id := [105], performer := [112, 102], canonicalName := [97, 98, 32, 99, 100],
    possibleAnswers := [], ytVideoId := [118, 49], songStart := 5,
    playDuration := 30 }

/-- An entry asking for 120 seconds of play. -/
def entrySlow : QuizEntry := { entryAB with id := [106], playDuration := 120 }

/-- An environment with no skip shortcuts and always-succeeding playback. -/
def envOk : Env := { skipShortcuts := [[115]], playOk := fun _ => true }

/-- A playing session: host `[104]` is the only participant, round 0 of
one entry, round timer armed. -/
def statePlaying : GameState :=
  { guildId := [103], hostId := [104], channelId := [99], packName := [110],
    entries := [entryAB], isActive := true, currentRound := 0, scores := [],
    players := [[104]], skipVoters := [], roundTimeout := some TimerCb.roundTimeout,
    answerDisplayed := false }

/-- A message from the host, in the session channel, spelling the
canonical title `"ab cd"`. -/
def msgCorrect : Msg := { authorId := [104], channelId := [99], content := [97, 98, 32, 99, 100] }

/-- A playing session with four participants of which two already voted
to skip. -/
def stateFourPlayers : GameState :=
  { statePlaying with players := [[1], [2], [3], [4]], skipVoters := [[1], [2]] }

/-- C4: answer matching is case-insensitive — lower-casing or
upper-casing the guess never changes the verdict, and a guess matches
exactly when its lower-cased form is one of the generated variants — but
it is not whitespace-insensitive on the guess side: for the entry titled
`"ab cd"`, the guess `"a bcd"` fails while its whitespace-stripped form
succeeds. -/
theorem matching_case_insensitive_not_space_insensitive :
    (∀ (e : QuizEntry) (g : JSStr),
        jsMatches e g = jsMatches e (toUpperCase g)
          ∧ jsMatches e g = jsMatches e (toLowerCase g)
          ∧ (jsMatches e g = true ↔ toLowerCase g ∈ generatePossibleAnswers e))
      ∧ ∃ (e : QuizEntry) (g : JSStr),
          jsMatches e (stripWhitespace g) ≠ jsMatches e g := by
  constructor
  · intro e g
    refine ⟨?_, ?_, ?_⟩
    · unfold jsMatches
      rw [toLowerCase_toUpperCase]
    · unfold jsMatches
      rw [toLowerCase_idem]
    · unfold jsMatches isCorrectAnswer
      simp [List.contains]
  · exact ⟨entryAB, [97, 32, 98, 99, 100], by decide⟩

/-- C5: a skip vote from a fresh voter resolves the round (returns
`true` and advances the round index) exactly when the enlarged voter set
strictly outnumbers half the participants
(`this.skipVoters.size > totalPlayers / 2`). -/
theorem voteSkip_strict_majority (env : Env) (s : GameState) (p : JSStr)
    (hA : s.isActive = true) (hE : (currentEntry s).isSome = true)
    (hP : s.players.contains p = true)
    (hV : s.skipVoters.contains p = false) :
    ((voteSkip env s p).2.2 = true
        ↔ 2 * (s.skipVoters.length + 1) > s.players.length)
      ∧ ((voteSkip env s p).2.2 = true
        → s.currentRound < (voteSkip env s p).1.currentRound)
      ∧ ((voteSkip env s p).2.2 = false
        → (voteSkip env s p).1.currentRound = s.currentRound) := by
  unfold voteSkip
  rw [if_neg (by rw [hA, hE, hP]; decide), if_neg (by rw [hV]; decide)]
  dsimp only
  have hlen : (s.skipVoters ++ [p]).length = s.skipVoters.length + 1 := by simp
  split
  · next hmaj =>
    have h4 := (playNextRound_pres env
      { s with skipVoters := s.skipVoters ++ [p], currentRound := s.currentRound + 1 }).2.2.2
    refine ⟨⟨fun _ => by omega, fun _ => rfl⟩, fun _ => ?_, fun hfalse => ?_⟩
    · exact lt_of_lt_of_le (Nat.lt_succ_self _) h4
    · exact absurd hfalse (by simp)
  · next hmaj =>
    exact ⟨⟨fun htrue => absurd htrue (by simp), fun hcount => by omega⟩,
      fun htrue => absurd htrue (by simp), fun _ => rfl⟩

/-- C5 witness: with four participants and two standing votes, the third
vote crosses the strict-majority threshold and skips. -/
theorem voteSkip_strict_majority_witness :
    (voteSkip envOk stateFourPlayers [3]).2.2 = true :=
  (voteSkip_strict_majority envOk stateFourPlayers [3] rfl rfl
    (by decide) (by decide)).1.mpr (by decide)

/-- C6: the session's entry sequence is a permutation of the source
pack's entries — same length, nothing duplicated, nothing dropped — and
no session operation ever changes it afterwards. -/
theorem session_entries_permutation (guildId hostId channelId : JSStr)
    (pack : QuizPack) (cmp : QuizEntry → QuizEntry → Bool) :
    List.Perm (mkGameState guildId hostId channelId pack cmp).entries
        pack.entries
      ∧ (mkGameState guildId hostId channelId pack cmp).entries.length
          = pack.entries.length
      ∧ (∀ env s ops, (runOps env s ops).entries = s.entries) := by
  have hperm : List.Perm (mkGameState guildId hostId channelId pack cmp).entries
      pack.entries := List.mergeSort_perm pack.entries cmp
  exact ⟨hperm, hperm.length_eq, fun env s ops => runOps_entries env ops s⟩

/-- C7: a successful answer credits its author exactly one point
(starting from the default 0 when absent), leaves every other score
alone, and no sequence of session operations ever decreases any
participant's score. -/
theorem credit_one_point_and_monotone (env : Env) (s : GameState) (m : Msg)
    (e : QuizEntry) (hE : currentEntry s = some e)
    (hok : (checkAnswer env s m).2.2 = true) :
    score (checkAnswer env s m).1 m.authorId = score s m.authorId + 1
      ∧ (∀ q, q ≠ m.authorId → score (checkAnswer env s m).1 q = score s q)
      ∧ (∀ env2 s2 ops p, score s2 p ≤ score (runOps env2 s2 ops) p) := by
  obtain ⟨-, hscores, -⟩ := checkAnswer_correct_spec env s m e hE hok
  refine ⟨?_, fun q hq => ?_, fun env2 s2 ops p => runOps_score_mono env2 ops s2 p⟩
  · show (mapGet (checkAnswer env s m).1.scores m.authorId).getD 0
      = score s m.authorId + 1
    rw [hscores, mapGet_mapSet_self]
    rfl
  · show (mapGet (checkAnswer env s m).1.scores q).getD 0
      = (mapGet s.scores q).getD 0
    rw [hscores, mapGet_mapSet_ne _ _ _ _ hq]

/-- C7 witness: in the one-player session the host answers correctly and
their score goes from 0 to 1. -/
theorem credit_one_point_witness :
    score (checkAnswer envOk statePlaying msgCorrect).1 [104]
      = score statePlaying [104] + 1 :=
  (credit_one_point_and_monotone envOk statePlaying msgCorrect entryAB
    rfl (by decide)).1

/-- A session about to play the 120-second entry (no timer armed yet). -/
def statePlayingSlow : GameState :=
  { statePlaying with entries := [entrySlow], roundTimeout := none }

/-- An environment in which stream creation fails for round 0 only. -/
def envFail : Env := { skipShortcuts := [], playOk := fun i => i != 0 }

/-- A two-entry session whose first entry will fail to play. -/
def stateMediaFail : GameState :=
  { statePlaying with entries := [entryAB, entrySlow], roundTimeout := none }

/-- C3 counterexample: for an entry asking for 120 seconds the code arms
the round timer for the full 120 seconds, not for
`min(playDuration, maxRoundSeconds) = min(120, 60) = 60` as the claim
requires. -/
theorem armed_duration_not_clipped :
    (playCurrentEntry envOk statePlayingSlow).2
        = [Event.armTimer TimerCb.roundTimeout 120]
      ∧ min (120 : Int) 60 = 60 ∧ (120 : Int) ≠ 60 := by
  refine ⟨?_, by decide, by decide⟩
  rw [playCurrentEntry_ok envOk statePlayingSlow entrySlow rfl rfl]
  decide

/-- C3 (amended): the armed round-timeout duration equals
`entry.playDuration` whenever that is positive — it is not clipped to
`maxRoundSeconds` — and equals 60 seconds (the default cap) exactly when
the entry carries the play-to-natural-end sentinel
(`playDuration <= 0`). -/
theorem armed_timeout_duration (env : Env) (s : GameState) (e : QuizEntry)
    (hE : currentEntry s = some e) (hOk : env.playOk s.currentRound = true) :
    (playCurrentEntry env s).2
        = [Event.armTimer TimerCb.roundTimeout
            (if 0 < e.playDuration then e.playDuration else 60)]
      ∧ (playCurrentEntry env s).1.roundTimeout = some TimerCb.roundTimeout := by
  rw [playCurrentEntry_ok env s e hE hOk]
  exact ⟨rfl, rfl⟩

/-- C3 witness: the 120-second entry arms a 120-second timer. -/
theorem armed_timeout_duration_witness :
    (playCurrentEntry envOk statePlayingSlow).2
      = [Event.armTimer TimerCb.roundTimeout 120] := by
  rw [(armed_timeout_duration envOk statePlayingSlow entrySlow rfl rfl).1]
  decide

/-- C8: when stream creation fails for the current entry, the controller
announces the skip-due-to-error message, advances the round index
without ever arming a round timer for the failed round, and either
continues with the next entry (round index advanced by one, session
still active, timer armed) or — when no entry remains — ends the
session normally with the final scores; the error is never fatal. -/
theorem media_error_skips_round (env : Env) (s : GameState) (e : QuizEntry)
    (hE : currentEntry s = some e)
    (hFail : env.playOk s.currentRound = false) :
    (playCurrentEntry env s).1
        = (playNextRound env { s with currentRound := s.currentRound + 1 }).1
      ∧ (playCurrentEntry env s).2
          = Event.sendPlayError e.ytVideoId :: Event.stopPlayer
            :: (playNextRound env { s with currentRound := s.currentRound + 1 }).2
      ∧ (s.entries.length ≤ s.currentRound + 1
        → (playCurrentEntry env s).1.isActive = false
          ∧ Event.sendFinalScores (sortScoresDesc s.scores)
              ∈ (playCurrentEntry env s).2)
      ∧ (∀ e2, s.entries[s.currentRound + 1]? = some e2
        → env.playOk (s.currentRound + 1) = true
        → (playCurrentEntry env s).1.currentRound = s.currentRound + 1
          ∧ (playCurrentEntry env s).1.isActive = s.isActive
          ∧ (playCurrentEntry env s).1.roundTimeout
              = some TimerCb.roundTimeout) := by
  have hkey := playCurrentEntry_fail env s e hE hFail
  refine ⟨by rw [hkey], by rw [hkey], fun hend => ?_, fun e2 hE2 hOk2 => ?_⟩
  · have hnone : currentEntry { s with currentRound := s.currentRound + 1 } = none := by
      unfold currentEntry
      rw [if_pos (by simpa using hend)]
    rw [hkey, playNextRound_none env _ hnone]
    unfold endGame
    exact ⟨rfl, by simp⟩
  · have hsome : currentEntry { s with currentRound := s.currentRound + 1 } = some e2 :=
      currentEntry_of_getElem (by simpa using hE2)
    rw [hkey, playNextRound_entry env _ e2 hsome]
    have hsome2 : currentEntry { { s with currentRound := s.currentRound + 1 } with roundTimeout := none, skipVoters := [], answerDisplayed := false } = some e2 :=
      currentEntry_of_getElem (by simpa using hE2)
    rw [playCurrentEntry_ok env _ e2 hsome2 hOk2]
    exact ⟨rfl, rfl, rfl⟩

/-- C8 witness: in the two-entry session whose first stream fails, the
failed round is skipped with an announcement and play continues at
round 1. -/
theorem media_error_skips_round_witness :
    (playCurrentEntry envFail stateMediaFail).1.currentRound = 1
      ∧ (playCurrentEntry envFail stateMediaFail).1.isActive = true
      ∧ Event.sendPlayError [118, 49]
          ∈ (playCurrentEntry envFail stateMediaFail).2 := by
  have h := media_error_skips_round envFail stateMediaFail entryAB rfl rfl
  refine ⟨(h.2.2.2 entrySlow rfl rfl).1, (h.2.2.2 entrySlow rfl rfl).2.1, ?_⟩
  rw [h.2.1]
  exact List.mem_cons_self _ _

/-- C1 counterexample: in the one-player session with the round timer
armed, a matching answer applies the Correct side effects (credit and
announcements, result `true`) yet leaves the timer armed and the round
index at 0, and the timer subsequently firing applies the full Timeout
side effect set (timeout announcement, round advancement) for the very
same round — the Timeout path is not a no-op after Correct. -/
theorem correct_then_timeout_both_fire :
    (checkAnswer envOk statePlaying msgCorrect).2.2 = true
      ∧ Event.credit [104] 1 ∈ (checkAnswer envOk statePlaying msgCorrect).2.1
      ∧ (checkAnswer envOk statePlaying msgCorrect).1.currentRound = 0
      ∧ (checkAnswer envOk statePlaying msgCorrect).1.roundTimeout
          = some TimerCb.roundTimeout
      ∧ (step envOk (checkAnswer envOk statePlaying msgCorrect).1
          Op.fireTimer).1.currentRound = 1
      ∧ Event.sendTimeout [112, 102] [97, 98, 32, 99, 100]
          ∈ (step envOk (checkAnswer envOk statePlaying msgCorrect).1
              Op.fireTimer).2 := by decide

/-- C1 (amended): a correct answer is not a resolution path — it leaves
both the round index and the round timer untouched, so Timeout or Skip
side effects can still apply to the same round afterwards.  The Skipped
and Timeout paths, by contrast, each advance the round index (and the
index never decreases under any operation), so at most one of those two
applies its side effects to any given round. -/
theorem at_most_one_advance_per_round :
    (∀ env s m, (checkAnswer env s m).2.2 = true
        → (checkAnswer env s m).1.currentRound = s.currentRound
          ∧ (checkAnswer env s m).1.roundTimeout = s.roundTimeout)
      ∧ (∀ s e, currentEntry s = some e
        → (timeoutCurrentRound s).1.currentRound = s.currentRound + 1)
      ∧ (∀ env s p, (voteSkip env s p).2.2 = true
        → s.currentRound < (voteSkip env s p).1.currentRound)
      ∧ (∀ env s op, s.currentRound ≤ (step env s op).1.currentRound) := by
  refine ⟨?_, ?_, ?_, step_round_mono⟩
  · intro env s m h
    cases hE : currentEntry s with
    | none =>
      exfalso
      unfold checkAnswer at h
      rw [hE] at h
      simp at h
    | some e =>
      have hspec := checkAnswer_correct_spec env s m e hE h
      exact ⟨hspec.2.2.2.1, hspec.2.2.1⟩
  · intro s e hE
    unfold timeoutCurrentRound
    rw [hE]
  · intro env s p h
    unfold voteSkip at h ⊢
    by_cases hg : (!(s.isActive && (currentEntry s).isSome
        && s.players.contains p)) = true
    · rw [if_pos hg] at h
      exact absurd h (by simp)
    · rw [if_neg hg] at h ⊢
      by_cases hdup : s.skipVoters.contains p = true
      · rw [if_pos hdup] at h
        exact absurd h (by simp)
      · rw [if_neg hdup] at h ⊢
        dsimp only at h ⊢
        by_cases hmaj : 2 * (s.skipVoters ++ [p]).length > s.players.length
        · rw [if_pos hmaj]
          dsimp only
          have h4 := (playNextRound_pres env
            { s with skipVoters := s.skipVoters ++ [p], currentRound := s.currentRound + 1 }).2.2.2
          exact lt_of_lt_of_le (Nat.lt_succ_self _) h4
        · rw [if_neg hmaj] at h
          exact absurd h (by simp)

/-- C1 witness for the amended statement: the concrete correct answer
keeps round 0, a timeout advances to round 1, and a majority skip vote
advances past round 0. -/
theorem at_most_one_advance_per_round_witness :
    (checkAnswer envOk statePlaying msgCorrect).1.currentRound = 0
      ∧ (timeoutCurrentRound statePlaying).1.currentRound = 1
      ∧ 0 < (voteSkip envOk stateFourPlayers [3]).1.currentRound :=
  ⟨(at_most_one_advance_per_round.1 envOk statePlaying msgCorrect
      (by decide)).1,
    at_most_one_advance_per_round.2.1 statePlaying entryAB rfl,
    at_most_one_advance_per_round.2.2.1 envOk stateFourPlayers [3]
      (by decide)⟩

/-- C2 counterexample: a matching answer while the round timer is armed
does not cancel the timer at all — the timer handle survives untouched
and no cancel side effect is emitted — contradicting the claim that the
Round Timer Handle is cancelled first. -/
theorem correct_answer_no_timer_cancel :
    (checkAnswer envOk statePlaying msgCorrect).2.2 = true
      ∧ (checkAnswer envOk statePlaying msgCorrect).1.roundTimeout
          = some TimerCb.roundTimeout
      ∧ Event.clearTimer ∉ (checkAnswer envOk statePlaying msgCorrect).2.1 := by
  decide

/-- C2 (amended): on a matching answer the side effects run in the order
credit the participant, announce the winner with the canonical answer,
announce that skip votes are accepted — and the Round Timer Handle is
not cancelled (it is left exactly as it was, with no cancel effect
emitted). -/
theorem correct_answer_side_effects (env : Env) (s : GameState) (m : Msg)
    (e : QuizEntry) (hE : currentEntry s = some e)
    (hok : (checkAnswer env s m).2.2 = true) :
    (checkAnswer env s m).2.1
        = [Event.credit m.authorId (score s m.authorId + 1),
           Event.sendWinner m.authorId e.performer e.canonicalName,
           Event.sendSkipAvailable]
      ∧ (checkAnswer env s m).1.scores
          = mapSet s.scores m.authorId (score s m.authorId + 1)
      ∧ (checkAnswer env s m).1.roundTimeout = s.roundTimeout
      ∧ Event.clearTimer ∉ (checkAnswer env s m).2.1 := by
  have h := checkAnswer_correct_spec env s m e hE hok
  refine ⟨h.1, h.2.1, h.2.2.1, ?_⟩
  rw [h.1]
  simp

/-- C2 witness: the concrete correct answer emits exactly the credit,
winner announcement and skip-availability announcement, in this order. -/
theorem correct_answer_side_effects_witness :
    (checkAnswer envOk statePlaying msgCorrect).2.1
      = [Event.credit [104] 1,
         Event.sendWinner [104] [112, 102] [97, 98, 32, 99, 100],
         Event.sendSkipAvailable] := by
  rw [(correct_answer_side_effects envOk statePlaying msgCorrect entryAB rfl
    (by decide)).1]
  decide

/-! The Relay Bridge (`createStreamBridge` of `src/utils.ts`): a Duplex
stream whose `write` pushes each chunk straight onto the readable-side
buffer and whose `final` pushes the `null` end-of-stream marker.  The
readable buffer is modelled as the FIFO list of pushed items, with
`null` as `none`. -/

/-- The bridge's state: everything pushed to the readable side so far
and not yet read, in push order. -/
structure StreamBridge (α : Type) where
  pushed : List (Option α)
deriving DecidableEq, Repr

/-- A freshly created bridge: nothing buffered. -/
def emptyBridge {α : Type} : StreamBridge α := ⟨[]⟩

/-- Model of `write(chunk)`: `bridge.push(chunk); callback()`. -/
def bridgeWrite {α : Type} (b : StreamBridge α) (c : α) : StreamBridge α :=
  ⟨b.pushed ++ [some c]⟩

/-- Model of `final`: `bridge.push(null); callback()`. -/
def bridgeFinal {α : Type} (b : StreamBridge α) : StreamBridge α :=
  ⟨b.pushed ++ [none]⟩

/-- One pull from the readable side: `none` when no data is buffered
(the read would block), otherwise the oldest buffered item — a chunk
(`some (some c)`) or the end-of-stream marker (`some none`). -/
def bridgeRead {α : Type} (b : StreamBridge α) :
    Option (Option α) × StreamBridge α :=
  match b.pushed with
  | [] => (none, b)
  | x :: rest => (some x, ⟨rest⟩)

/-- The producer writing a whole sequence of chunks. -/
def writeAll {α : Type} (b : StreamBridge α) (cs : List α) : StreamBridge α :=
  cs.foldl bridgeWrite b

/-- Draining the buffered items in order: the chunks readable before the
stream would block, and whether the end-of-stream marker was reached. -/
def consume {α : Type} : List (Option α) → List α × Bool
  | [] => ([], false)
  | none :: _ => ([], true)
  | some c :: rest => (c :: (consume rest).1, (consume rest).2)

theorem writeAll_pushed {α : Type} (cs : List α) :
    ∀ b : StreamBridge α, (writeAll b cs).pushed = b.pushed ++ cs.map some := by
  induction cs with
  | nil => intro b; simp [writeAll]
  | cons c cs ih =>
    intro b
    show (writeAll (bridgeWrite b c) cs).pushed = _
    rw [ih (bridgeWrite b c)]
    simp [bridgeWrite]

theorem consume_chunks {α : Type} (cs : List α) (rest : List (Option α)) :
    consume (cs.map some ++ rest)
      = (cs ++ (consume rest).1, (consume rest).2) := by
  induction cs with
  | nil => simp
  | cons c cs ih => simp [consume, ih]

/-- C9: after any finite write sequence followed by `finish`, the
consumer finds exactly the written chunks, in write order, followed by
the end-of-stream marker; before `finish` the same chunks are already
all available (each write appends its chunk immediately) and no
end-of-stream marker is present. -/
theorem stream_bridge_fifo {α : Type} (cs : List α) :
    (bridgeFinal (writeAll emptyBridge cs)).pushed = cs.map some ++ [none]
      ∧ consume (bridgeFinal (writeAll emptyBridge cs)).pushed = (cs, true)
      ∧ consume (writeAll emptyBridge cs).pushed = (cs, false)
      ∧ (∀ c : α, (writeAll emptyBridge (cs ++ [c])).pushed
          = (writeAll emptyBridge cs).pushed ++ [some c])
      ∧ (∀ (x : Option α) (rest : List (Option α)),
          bridgeRead (⟨x :: rest⟩ : StreamBridge α) = (some x, ⟨rest⟩)) := by
  have hw : (writeAll (emptyBridge (α := α)) cs).pushed = cs.map some := by
    rw [writeAll_pushed]
    rfl
  refine ⟨?_, ?_, ?_, fun c => ?_, fun x rest => rfl⟩
  · show (writeAll emptyBridge cs).pushed ++ [none] = cs.map some ++ [none]
    rw [hw]
  · show consume ((writeAll emptyBridge cs).pushed ++ [none]) = (cs, true)
    rw [hw, consume_chunks]
    simp [consume]
  · rw [hw]
    have := consume_chunks cs ([] : List (Option α))
    simpa [consume] using this
  · rw [writeAll_pushed, writeAll_pushed]
    simp

/-! The score query (`GameState.getScores`: `return new Map(this.scores)`)
modelled with an explicit heap of `Map` objects, so that the aliasing
behaviour of references is visible: the session holds a reference to its
score map, `getScores` allocates a fresh map initialized with a copy of
the current contents and returns the fresh reference. -/

/-- A heap of JS `Map` objects; a reference is an index into `cells`. -/
structure MapHeap where
  cells : List (List (JSStr × Nat))
deriving DecidableEq, Repr

/-- Dereference a `Map` reference. -/
def heapLoad (h : MapHeap) (r : Nat) : List (JSStr × Nat) :=
  h.cells.getD r []

/-- Replace the `Map` object a reference points to. -/
def heapStore (h : MapHeap) (r : Nat) (m : List (JSStr × Nat)) : MapHeap :=
  ⟨h.cells.set r m⟩

/-- Model of `getScores()`: allocate `new Map(this.scores)` — a fresh cell holding
a copy of the session map's current contents — and return its
reference. -/
def getScoresHeap (h : MapHeap) (scoresRef : Nat) : MapHeap × Nat :=
  (⟨h.cells ++ [heapLoad h scoresRef]⟩, h.cells.length)

/-- JS `Map.prototype.set` through a reference. -/
def mapSetHeap (h : MapHeap) (r : Nat) (k : JSStr) (v : Nat) : MapHeap :=
  heapStore h r (mapSet (heapLoad h r) k v)

/-- The score update of `checkAnswer`
(`this.scores.set(id, (this.scores.get(id) || 0) + 1)`) performed on the
session's map reference. -/
def creditHeap (h : MapHeap) (r : Nat) (p : JSStr) : MapHeap :=
  mapSetHeap h r p ((mapGet (heapLoad h r) p).getD 0 + 1)

theorem heapLoad_append {h : MapHeap} {r : Nat} (hr : r < h.cells.length)
    (m : List (JSStr × Nat)) :
    heapLoad ⟨h.cells ++ [m]⟩ r = heapLoad h r := by
  unfold heapLoad
  simp only [List.getD, List.get?_eq_getElem?]
  rw [List.getElem?_append_left hr]

theorem heapLoad_store_ne {h : MapHeap} {r r2 : Nat} (hne : r ≠ r2)
    (m : List (JSStr × Nat)) :
    heapLoad (heapStore h r m) r2 = heapLoad h r2 := by
  unfold heapLoad heapStore
  simp only [List.getD, List.get?_eq_getElem?]
  rw [List.getElem?_set_ne hne]

/-- C10: the score query returns a fresh reference distinct from the
session's; the snapshot holds the contents at query time; `set` on the
returned map leaves the session's map unchanged; and crediting inside
the session afterwards leaves the returned snapshot unchanged. -/
theorem getScores_snapshot (h : MapHeap) (r : Nat)
    (hr : r < h.cells.length) :
    (getScoresHeap h r).2 ≠ r
      ∧ heapLoad (getScoresHeap h r).1 r = heapLoad h r
      ∧ heapLoad (getScoresHeap h r).1 (getScoresHeap h r).2 = heapLoad h r
      ∧ (∀ k v, heapLoad
          (mapSetHeap (getScoresHeap h r).1 (getScoresHeap h r).2 k v) r
            = heapLoad h r)
      ∧ (∀ p, heapLoad (creditHeap (getScoresHeap h r).1 r p)
          (getScoresHeap h r).2 = heapLoad h r) := by
  have hsnap : (getScoresHeap h r).2 = h.cells.length := rfl
  have hload : heapLoad (getScoresHeap h r).1 r = heapLoad h r :=
    heapLoad_append hr _
  have hloadSnap : heapLoad (getScoresHeap h r).1 (getScoresHeap h r).2
      = heapLoad h r := by
    show heapLoad ⟨h.cells ++ [heapLoad h r]⟩ h.cells.length = heapLoad h r
    unfold heapLoad
    simp [List.getD]
  refine ⟨by omega, hload, hloadSnap, fun k v => ?_, fun p => ?_⟩
  · unfold mapSetHeap
    rw [heapLoad_store_ne (by omega), hload]
  · unfold creditHeap mapSetHeap
    rw [heapLoad_store_ne (by omega), hloadSnap]

/-- C10 witness: in a one-cell heap holding the session map, the
returned snapshot is a different reference, mutating it leaves the
session map alone, and crediting the session leaves the snapshot
alone. -/
theorem getScores_snapshot_witness :
    heapLoad (mapSetHeap (getScoresHeap ⟨[[([104], 2)]]⟩ 0).1
        (getScoresHeap ⟨[[([104], 2)]]⟩ 0).2 [104] 99) 0 = [([104], 2)]
      ∧ heapLoad (creditHeap (getScoresHeap ⟨[[([104], 2)]]⟩ 0).1 0 [104])
          (getScoresHeap ⟨[[([104], 2)]]⟩ 0).2 = [([104], 2)] :=
  ⟨(getScores_snapshot ⟨[[([104], 2)]]⟩ 0 (by decide)).2.2.2.1 [104] 99,
    (getScores_snapshot ⟨[[([104], 2)]]⟩ 0 (by decide)).2.2.2.2 [104]⟩

end SQBot
